import Mathlib

/-!
Verification development for the Hodgkin-Huxley gating core of moose-core.

The C++ sources are shallowly embedded over exact rational arithmetic:
every `double` of the source becomes a `ℚ`, `std::vector<double>` becomes
`List ℚ`, and the in-place mutation of the source is translated to
explicit state passing.  The exponential function used by the parametric
table fill (`HHGate::setupTables`) is kept abstract as a parameter
`ex : ℚ → ℚ`, since none of the verified properties depend on its values.
-/

/-- The singularity threshold of `HHGate.cpp`: `static const double SINGULARITY = 1.0e-6`. -/
def SINGULARITY : ℚ := 1 / 1000000

/-- The reinit threshold of `HHChannelF2D.cpp`: `EPSILON`, defined as `1e-15`. -/
def EPSILON : ℚ := 1 / 1000000000000000

/-- Modelled from the spec: the `instant` field of a channel is a bitmask with
one bit per gate (`INSTANT_X`, `INSTANT_Y`, `INSTANT_Z` of `HHChannelBase.h`,
which is not part of the sources at hand). -/
def INSTANT_X : ℕ := 1

/-- Bit of the Y gate in the `instant` bitmask. -/
def INSTANT_Y : ℕ := 2

/-- Bit of the Z gate in the `instant` bitmask. -/
def INSTANT_Z : ℕ := 4

/-- The C++ `static_cast<unsigned int>` applied to a `double`.  All call
sites of the source apply it to non-negative values, where truncation
toward zero agrees with the floor. -/
def castUInt (q : ℚ) : ℕ := (⌊q⌋).toNat

/-- The effect of `std::vector<double>::resize(n)`: keep the first `n`
entries, pad with value-initialised (`0.0`) entries when growing. -/
def resizeList (l : List ℚ) (n : ℕ) : List ℚ :=
  l.take n ++ List.replicate (n - l.length) 0

/-- State of a table-backed 1-D gate, `HHGate` of `HHGate.cpp`/`HHGate.h`.
The fields `alpha`, `beta`, `tau`, `mInfinity` are the 5-coefficient
parametric vectors `alpha_`, `beta_`, `tau_`, `mInfinity_`; `originalId`
stands for the identity recorded by `HHGateBase` against which
`checkOriginal` compares the caller. -/
structure HHGate where
  A : List ℚ
  B : List ℚ
  xmin : ℚ
  xmax : ℚ
  invDx : ℚ
  form : ℕ
  alphaExpr : String
  betaExpr : String
  lookupByInterpolation : Bool
  isDirectTable : Bool
  alpha : List ℚ
  beta : List ℚ
  tau : List ℚ
  mInfinity : List ℚ
  originalId : ℕ

/-- Modelled from the spec: `HHGateBase::checkOriginal` is not among the
sources at hand; per the spec a mutating entry point succeeds exactly when
the caller's identifier equals the identifier of the gate's original
owner, and otherwise warns and refuses. -/
def HHGate.checkOriginal (g : HHGate) (id : ℕ) : Bool :=
  id == g.originalId

/-- `HHGate::lookupTable(tab, v)`: clamp below `xmin_` to `tab[0]` and
above `xmax_` to `tab.back()`; otherwise index by
`static_cast<unsigned int>((v - xmin_) * invDx_)`, with optional linear
interpolation. -/
def HHGate.lookupTable (g : HHGate) (tab : List ℚ) (v : ℚ) : ℚ :=
  if v ≤ g.xmin then tab.getD 0 0
  else if g.xmax ≤ v then tab.getLastD 0
  else if g.lookupByInterpolation then
    let index := castUInt ((v - g.xmin) * g.invDx)
    let frac := (v - g.xmin - (index : ℚ) / g.invDx) * g.invDx
    tab.getD index 0 * (1 - frac) + tab.getD (index + 1) 0 * frac
  else tab.getD (castUInt ((v - g.xmin) * g.invDx)) 0

/-- `HHGate::lookupA`. -/
def HHGate.lookupA (g : HHGate) (v : ℚ) : ℚ :=
  g.lookupTable g.A v

/-- `HHGate::lookupB`. -/
def HHGate.lookupB (g : HHGate) (v : ℚ) : ℚ :=
  g.lookupTable g.B v

/-- `HHGate::lookupBoth(v, A, B)`: the clamped/indexed pair lookup sharing
a single index computation for both tables. -/
def HHGate.lookupBoth (g : HHGate) (v : ℚ) : ℚ × ℚ :=
  if v ≤ g.xmin then (g.A.getD 0 0, g.B.getD 0 0)
  else if g.xmax ≤ v then (g.A.getLastD 0, g.B.getLastD 0)
  else
    let index := castUInt ((v - g.xmin) * g.invDx)
    if g.lookupByInterpolation then
      let frac := (v - g.xmin - (index : ℚ) / g.invDx) * g.invDx
      (g.A.getD index 0 * (1 - frac) + g.A.getD (index + 1) 0 * frac,
       g.B.getD index 0 * (1 - frac) + g.B.getD (index + 1) 0 * frac)
    else (g.A.getD index 0, g.B.getD index 0)

/-- A concrete valid gate used to instantiate hypotheses of the general
theorems: tables `A = [1, 2]`, `B = [3, 4]` over `[0, 1]` with one
division and interpolating lookup. -/
def gateEx : HHGate :=
  { A := [1, 2], B := [3, 4], xmin := 0, xmax := 1, invDx := 1, form := 0,
    alphaExpr := "", betaExpr := "", lookupByInterpolation := true,
    isDirectTable := true, alpha := [], beta := [], tau := [],
    mInfinity := [], originalId := 1 }

lemma getLastD_eq_getD_length_sub_one (l : List ℚ) (h : l ≠ []) :
    ∀ d : ℚ, l.getLastD d = l.getD (l.length - 1) 0 := by
  induction l with
  | nil => simp at h
  | cons a t ih =>
    intro d
    cases t with
    | nil => simp
    | cons b t2 =>
      rw [List.getLastD_cons]
      rw [ih (by simp) a]
      simp

/-- C1: for a table-backed 1-D gate with valid tables
(`A.size() == B.size() == divs + 1`, `divs ≥ 1`, `min < max`, and the
derived `invDx = divs / (max − min)`), `lookupBoth` returns
`(A[0], B[0])` at or below `min`, `(A.last, B.last)` at or above `max`,
and in between indexes both tables at `i = floor((v − min)·invDx)` — which
is proved to lie inside the tables — returning `(A[i], B[i])` without
interpolation and the linear interpolation with
`frac = (v − min − i/invDx)·invDx` with interpolation. -/
theorem hhgate_lookupBoth_correct (g : HHGate) (divs : ℕ)
    (hA : g.A.length = divs + 1) (hB : g.B.length = divs + 1)
    (hdivs : 1 ≤ divs) (hrange : g.xmin < g.xmax)
    (hinv : g.invDx = (divs : ℚ) / (g.xmax - g.xmin)) (v : ℚ) :
    (v ≤ g.xmin → g.lookupBoth v = (g.A.getD 0 0, g.B.getD 0 0)) ∧
    (g.xmax ≤ v → g.lookupBoth v = (g.A.getD divs 0, g.B.getD divs 0)) ∧
    (g.xmin < v → v < g.xmax →
      0 ≤ ⌊(v - g.xmin) * g.invDx⌋ ∧
      castUInt ((v - g.xmin) * g.invDx) < divs ∧
      (g.lookupByInterpolation = false →
        g.lookupBoth v =
          (g.A.getD (castUInt ((v - g.xmin) * g.invDx)) 0,
           g.B.getD (castUInt ((v - g.xmin) * g.invDx)) 0)) ∧
      (g.lookupByInterpolation = true →
        g.lookupBoth v =
          (g.A.getD (castUInt ((v - g.xmin) * g.invDx)) 0 *
              (1 - (v - g.xmin - (castUInt ((v - g.xmin) * g.invDx) : ℚ) / g.invDx) * g.invDx) +
            g.A.getD (castUInt ((v - g.xmin) * g.invDx) + 1) 0 *
              ((v - g.xmin - (castUInt ((v - g.xmin) * g.invDx) : ℚ) / g.invDx) * g.invDx),
           g.B.getD (castUInt ((v - g.xmin) * g.invDx)) 0 *
              (1 - (v - g.xmin - (castUInt ((v - g.xmin) * g.invDx) : ℚ) / g.invDx) * g.invDx) +
            g.B.getD (castUInt ((v - g.xmin) * g.invDx) + 1) 0 *
              ((v - g.xmin - (castUInt ((v - g.xmin) * g.invDx) : ℚ) / g.invDx) * g.invDx)))) := by
  have hd : (0 : ℚ) < g.xmax - g.xmin := by linarith
  refine ⟨?_, ?_, ?_⟩
  · intro hle
    simp [HHGate.lookupBoth, hle]
  · intro hge
    have hnle : ¬ v ≤ g.xmin := by push_neg; linarith
    have hAne : g.A ≠ [] := by
      intro hnil; rw [hnil] at hA; simp at hA
    have hBne : g.B ≠ [] := by
      intro hnil; rw [hnil] at hB; simp at hB
    simp only [HHGate.lookupBoth, if_neg hnle, if_pos hge]
    rw [getLastD_eq_getD_length_sub_one g.A hAne 0, getLastD_eq_getD_length_sub_one g.B hBne 0,
      hA, hB]
    simp
  · intro hlt hlt2
    have hw0 : 0 < (v - g.xmin) * g.invDx := by
      apply mul_pos (by linarith)
      rw [hinv]
      positivity
    have hwlt : (v - g.xmin) * g.invDx < (divs : ℚ) := by
      rw [hinv]
      rw [div_eq_mul_inv, ← mul_assoc]
      calc (v - g.xmin) * (divs : ℚ) * (g.xmax - g.xmin)⁻¹
          < (g.xmax - g.xmin) * (divs : ℚ) * (g.xmax - g.xmin)⁻¹ := by
            apply mul_lt_mul_of_pos_right
            · apply mul_lt_mul_of_pos_right (by linarith)
              exact_mod_cast Nat.pos_of_ne_zero (by omega)
            · positivity
        _ = (divs : ℚ) := by field_simp
    have hfl0 : 0 ≤ ⌊(v - g.xmin) * g.invDx⌋ := Int.floor_nonneg.mpr (le_of_lt hw0)
    have hfllt : ⌊(v - g.xmin) * g.invDx⌋ < (divs : ℤ) := by
      rw [Int.floor_lt]
      exact_mod_cast hwlt
    have hcast : castUInt ((v - g.xmin) * g.invDx) < divs := by
      unfold castUInt
      omega
    have hnle : ¬ v ≤ g.xmin := by push_neg; exact hlt
    have hnge : ¬ g.xmax ≤ v := by push_neg; exact hlt2
    refine ⟨hfl0, hcast, ?_, ?_⟩
    · intro hni
      simp [HHGate.lookupBoth, if_neg hnle, if_neg hnge, hni]
    · intro hi
      simp [HHGate.lookupBoth, if_neg hnle, if_neg hnge, hi]

/-- C1 witness: the general lookup theorem instantiated on the concrete
gate `gateEx` at `v = 1/2`, discharging every hypothesis. -/
theorem hhgate_lookupBoth_correct_witness :
    gateEx.lookupBoth (1 / 2) = (3 / 2, 7 / 2) := by
  have h := hhgate_lookupBoth_correct gateEx 1 rfl rfl (le_refl 1)
    (by norm_num [gateEx]) (by norm_num [gateEx]) (1 / 2)
  have h2 := (h.2.2 (by norm_num [gateEx]) (by norm_num [gateEx])).2.2.2 rfl
  rw [h2]
  norm_num [gateEx, castUInt]

/-- A-table step of `HHGate::setupTables`: at sample point `x`, with mutable
locals threaded explicitly, produce `(A_[i], temp, temp2)` as left by the
first half of the loop body.  `parms[0..4]` are the five alpha-curve
coefficients; a denominator smaller than `SINGULARITY` in magnitude is
healed by averaging the two flanking samples `x ± dx/10`. -/
def fillA (ex : ℚ → ℚ) (parms : List ℚ) (x dx temp2 : ℚ) : ℚ × ℚ × ℚ :=
  let p0 := parms.getD 0 0
  let p1 := parms.getD 1 0
  let p2 := parms.getD 2 0
  let p3 := parms.getD 3 0
  let p4 := parms.getD 4 0
  if |p4| < SINGULARITY then (0, 0, temp2)
  else
    let t2 := p2 + ex ((x + p3) / p4)
    if |t2| < SINGULARITY then
      let t2a := p2 + ex ((x + dx / 10 + p3) / p4)
      let va := (p0 + p1 * (x + dx / 10)) / t2a
      let t2b := p2 + ex ((x - dx / 10 + p3) / p4)
      let t := (va + (p0 + p1 * (x - dx / 10)) / t2b) / 2
      (t, t, t2b)
    else
      let t := (p0 + p1 * x) / t2
      (t, t, t2)

/-- B-table step of `HHGate::setupTables`: the second half of the loop
body, including the trailing `if (doTau == 0 && fabs(temp2) > SINGULARITY)
B_[i] += temp` which reads whatever `temp`/`temp2` were last assigned.
Returns `(B_[i], temp2)`. -/
def fillB (ex : ℚ → ℚ) (parms : List ℚ) (x dx : ℚ) (temp temp2 : ℚ)
    (doTau : Bool) : ℚ × ℚ :=
  let p5 := parms.getD 5 0
  let p6 := parms.getD 6 0
  let p7 := parms.getD 7 0
  let p8 := parms.getD 8 0
  let p9 := parms.getD 9 0
  if |p9| < SINGULARITY then
    (if doTau = false ∧ SINGULARITY < |temp2| then 0 + temp else 0, temp2)
  else
    let t2 := p7 + ex ((x + p8) / p9)
    if |t2| < SINGULARITY then
      let t2a := p7 + ex ((x + dx / 10 + p8) / p9)
      let vb := (p5 + p6 * (x + dx / 10)) / t2a
      let t2b := p7 + ex ((x - dx / 10 + p8) / p9)
      let t := (vb + (p5 + p6 * (x - dx / 10)) / t2b) / 2
      (if doTau = false ∧ SINGULARITY < |t2b| then t + t else t, t2b)
    else
      let bi := (p5 + p6 * x) / t2
      (if doTau = false ∧ SINGULARITY < |t2| then bi + temp else bi, t2)

/-- The main loop of `HHGate::setupTables`, producing the two raw tables.
`n` is the number of entries still to fill (the source iterates
`i = 0 .. xdivs`, so it starts at `xdivs + 1`), `x` the current sample
point, `temp2` the mutable local carried across iterations (declared as
`double temp2 = 0.0` before the loop). -/
def fillTables (ex : ℚ → ℚ) (parms : List ℚ) (dx : ℚ) (doTau : Bool) :
    ℕ → ℚ → ℚ → List ℚ × List ℚ
  | 0, _, _ => ([], [])
  | n + 1, x, temp2 =>
    let ra := fillA ex parms x dx temp2
    let rb := fillB ex parms x dx ra.2.1 ra.2.2 doTau
    let rest := fillTables ex parms dx doTau n (x + dx) rb.2
    (ra.1 :: rest.1, rb.1 :: rest.2)

/-- The `doTau` rewrite pass at the end of `HHGate::setupTables`: walk the
raw tau/inf tables with `prevAentry`/`prevBentry` starting at `0`; where
`|tau|` is below `SINGULARITY` carry the previous transformed entry
forward, otherwise store `(inf/tau, 1/tau)`. -/
def tweakTauInf (prevA prevB : ℚ) : List ℚ → List ℚ → List ℚ × List ℚ
  | a :: as, b :: bs =>
    let c := if |a| < SINGULARITY then prevA else b / a
    let d := if |a| < SINGULARITY then prevB else 1 / a
    let rest := tweakTauInf c d as bs
    (c :: rest.1, d :: rest.2)
  | _, _ => ([], [])

/-- `HHGate::setupTables(parms, doTau)`: reject `parms[10] < 1`, resize the
tables to `xdivs + 1` entries (every entry is overwritten by the fill
loop), set the range and `invDx_`, fill from the canonical parametric
form, apply the tau/inf rewrite when `doTau`, and set `form_ = 0`. -/
def HHGate.setupTables (ex : ℚ → ℚ) (g : HHGate) (parms : List ℚ)
    (doTau : Bool) : HHGate :=
  if parms.getD 10 0 < 1 then g
  else
    let xdivs := castUInt (parms.getD 10 0)
    let xmin := parms.getD 11 0
    let xmax := parms.getD 12 0
    let invDx := (xdivs : ℚ) / (xmax - xmin)
    let dx := (xmax - xmin) / (xdivs : ℚ)
    let raw := fillTables ex parms dx doTau (xdivs + 1) xmin 0
    if doTau then
      let tw := tweakTauInf 0 0 raw.1 raw.2
      { g with A := tw.1, B := tw.2, xmin := xmin, xmax := xmax,
               invDx := invDx, form := 0 }
    else
      { g with A := raw.1, B := raw.2, xmin := xmin, xmax := xmax,
               invDx := invDx, form := 0 }

/-- `HHGate::updateTables`: rebuild the tables from the stored 5-coefficient
`alpha_`/`beta_` vectors; note that the source pushes `A_.size()` (not
`A_.size() - 1`) as the `xdivs` slot of the parameter vector. -/
def HHGate.updateTables (ex : ℚ → ℚ) (g : HHGate) : HHGate :=
  if g.alpha.length = 0 ∨ g.beta.length = 0 then g
  else g.setupTables ex (g.alpha ++ g.beta ++ [(g.A.length : ℚ), g.xmin, g.xmax]) false

/-- `HHGate::getAlphaParms`: read back `alpha_`, `beta_`, then pushes
`(double)A_.size()`, `xmin_`, `xmax_`. -/
def HHGate.getAlphaParms (g : HHGate) : List ℚ :=
  g.alpha ++ g.beta ++ [(g.A.length : ℚ), g.xmin, g.xmax]

/-- `HHGate::setupAlpha`: under the original-owner guard and a 13-entry
check, run `setupTables(parms, false)`, then resize `alpha_`/`beta_` to 5
entries and overwrite them with `parms[0..4]` and `parms[5..9]`; finally
`form_ = 0`.  The second component records whether a warning was printed. -/
def HHGate.setupAlpha (ex : ℚ → ℚ) (g : HHGate) (id : ℕ) (parms : List ℚ) :
    HHGate × Bool :=
  if g.checkOriginal id then
    if parms.length ≠ 13 then (g, true)
    else
      let g1 := g.setupTables ex parms false
      let al := (((((resizeList g1.alpha 5).set 0 (parms.getD 0 0)).set 1
        (parms.getD 1 0)).set 2 (parms.getD 2 0)).set 3 (parms.getD 3 0)).set 4
        (parms.getD 4 0)
      let be := (((((resizeList g1.beta 5).set 0 (parms.getD 5 0)).set 1
        (parms.getD 6 0)).set 2 (parms.getD 7 0)).set 3 (parms.getD 8 0)).set 4
        (parms.getD 9 0)
      ({ g1 with alpha := al, beta := be, form := 0 }, false)
  else (g, true)

/-- `HHGate::setupTau`: under the original-owner guard and a 13-entry
check, run `setupTables(parms, true)` and set `form_ = 0`. -/
def HHGate.setupTau (ex : ℚ → ℚ) (g : HHGate) (id : ℕ) (parms : List ℚ) :
    HHGate × Bool :=
  if g.checkOriginal id then
    if parms.length ≠ 13 then (g, true)
    else (g.setupTables ex parms true, false)
  else (g, true)

lemma length_resizeList (l : List ℚ) (n : ℕ) : (resizeList l n).length = n := by
  simp [resizeList]
  omega

lemma fillTables_length (ex : ℚ → ℚ) (parms : List ℚ) (dx : ℚ) (doTau : Bool) :
    ∀ (n : ℕ) (x temp2 : ℚ),
      (fillTables ex parms dx doTau n x temp2).1.length = n ∧
      (fillTables ex parms dx doTau n x temp2).2.length = n := by
  intro n
  induction n with
  | zero => intro x t; simp [fillTables]
  | succ m ih =>
    intro x t
    simp only [fillTables, List.length_cons]
    constructor
    · rw [(ih _ _).1]
    · rw [(ih _ _).2]

lemma castUInt_natCast (n : ℕ) : castUInt (n : ℚ) = n := by
  simp [castUInt]

lemma resizeList_set_five (l : List ℚ) (a b c d e : ℚ) :
    (((((resizeList l 5).set 0 a).set 1 b).set 2 c).set 3 d).set 4 e =
      [a, b, c, d, e] := by
  have h5 : (resizeList l 5).length = 5 := length_resizeList l 5
  rcases hl : resizeList l 5 with _ | ⟨x0, _ | ⟨x1, _ | ⟨x2, _ | ⟨x3, _ | ⟨x4, rest⟩⟩⟩⟩⟩ <;>
    rw [hl] at h5 <;> simp_all [List.set]

/-- C5 counterexample: the 13-scalar vector
`[0,0,0,0,1, 0,0,0,0,1, 1, 0, 1]` (`divs = 1`, `min = 0 < max = 1`). -/
def parmsC5 : List ℚ := [0, 0, 0, 0, 1, 0, 0, 0, 0, 1, 1, 0, 1]

/-- An arbitrary concrete exponential stand-in used only to instantiate the
abstract `ex` parameter in counterexamples and witnesses. -/
def exOne : ℚ → ℚ := fun _ => 1

/-- C5 counterexample: setting up `gateEx` with `parmsC5` through its
original owner and reading back `alphaParms` does not return the same 13
scalars: the eleventh slot reads back `2` (the table size `divs + 1`)
where `1` (`divs`) was written. -/
theorem hhgate_alphaParms_roundtrip_counterexample :
    (gateEx.setupAlpha exOne 1 parmsC5).1.getAlphaParms ≠ parmsC5 ∧
    (gateEx.setupAlpha exOne 1 parmsC5).1.getAlphaParms.getD 10 0 = 2 ∧
    parmsC5.getD 10 0 = 1 := by
  have hsetup :
      (gateEx.setupAlpha exOne 1 parmsC5).1.getAlphaParms =
        [0, 0, 0, 0, 1, 0, 0, 0, 0, 1, 2, 0, 1] := by
    simp only [HHGate.setupAlpha, HHGate.checkOriginal, gateEx, parmsC5,
      HHGate.setupTables, HHGate.getAlphaParms, fillTables, fillA, fillB,
      castUInt, SINGULARITY, exOne, resizeList_set_five]
    norm_num [List.set]
  rw [hsetup]
  refine ⟨?_, by norm_num, by norm_num [parmsC5]⟩
  intro h
  have := congrArg (fun l => List.getD l 10 (0 : ℚ)) h
  norm_num [parmsC5] at this

/-- C5 amended: for a valid 13-scalar parametric setup through the
original owner with a natural `divs = n ≥ 1` and `min < max`, reading back
`alphaParms` returns the ten curve coefficients, then the table size
`divs + 1` (not `divs`), then `min` and `max`. -/
theorem hhgate_alphaParms_roundtrip_amended (ex : ℚ → ℚ) (g : HHGate)
    (id : ℕ) (parms : List ℚ) (n : ℕ)
    (hid : id = g.originalId) (hlen : parms.length = 13)
    (h10 : parms.getD 10 0 = (n : ℚ)) (hn : 1 ≤ n) :
    (g.setupAlpha ex id parms).1.getAlphaParms =
      [parms.getD 0 0, parms.getD 1 0, parms.getD 2 0, parms.getD 3 0,
       parms.getD 4 0, parms.getD 5 0, parms.getD 6 0, parms.getD 7 0,
       parms.getD 8 0, parms.getD 9 0,
       (n : ℚ) + 1, parms.getD 11 0, parms.getD 12 0] := by
  have hchk : g.checkOriginal id = true := by
    simp [HHGate.checkOriginal, hid]
  have h10n : ¬ parms.getD 10 0 < 1 := by
    rw [h10]
    push_neg
    exact_mod_cast hn
  simp only [HHGate.setupAlpha, hchk, if_true, hlen, if_neg (by simp : ¬ (13 ≠ 13))]
  simp only [HHGate.setupTables, if_neg h10n, if_neg (by simp : ¬ False)]
  simp only [Bool.false_eq_true, if_false, resizeList_set_five]
  simp only [HHGate.getAlphaParms]
  rw [(fillTables_length ex parms _ false _ _ _).1]
  rw [h10, castUInt_natCast]
  push_cast
  simp

lemma tweakTauInf_spec (as : List ℚ) : ∀ (bs : List ℚ) (pA pB : ℚ) (i : ℕ),
    i < as.length → as.length = bs.length →
    ((|as.getD i 0| < SINGULARITY →
       (tweakTauInf pA pB as bs).1.getD i 0 =
         (if i = 0 then pA else (tweakTauInf pA pB as bs).1.getD (i - 1) 0) ∧
       (tweakTauInf pA pB as bs).2.getD i 0 =
         (if i = 0 then pB else (tweakTauInf pA pB as bs).2.getD (i - 1) 0)) ∧
     (¬ |as.getD i 0| < SINGULARITY →
       (tweakTauInf pA pB as bs).1.getD i 0 = bs.getD i 0 / as.getD i 0 ∧
       (tweakTauInf pA pB as bs).2.getD i 0 = 1 / as.getD i 0)) := by
  induction as with
  | nil =>
    intro bs pA pB i hi
    simp at hi
  | cons a as2 ih =>
    intro bs pA pB i hi hlen
    cases bs with
    | nil => simp at hlen
    | cons b bs2 =>
      have hlen2 : as2.length = bs2.length := by simpa using hlen
      cases i with
      | zero =>
        constructor
        · intro hsing
          have ha : |a| < SINGULARITY := by simpa using hsing
          simp [tweakTauInf, ha]
        · intro hns
          have ha : ¬ |a| < SINGULARITY := by simpa using hns
          simp [tweakTauInf, ha]
      | succ j =>
        have hj : j < as2.length := by simpa using hi
        have ihj := ih bs2 (if |a| < SINGULARITY then pA else b / a)
          (if |a| < SINGULARITY then pB else 1 / a) j hj hlen2
        constructor
        · intro hsing
          have hsing2 : |as2.getD j 0| < SINGULARITY := by simpa using hsing
          have hstep := ihj.1 hsing2
          cases j with
          | zero =>
            simpa [tweakTauInf] using hstep
          | succ k =>
            simpa [tweakTauInf] using hstep
        · intro hns
          have hns2 : ¬ |as2.getD j 0| < SINGULARITY := by simpa using hns
          have hstep := ihj.2 hns2
          simpa [tweakTauInf] using hstep

/-- The raw tau/inf curves sampled by the first loop of
`HHGate::setupTables(parms, true)`: table `A_` holds the sampled tau
curve, table `B_` the sampled inf curve, before the rewrite pass. -/
def tauRaw (ex : ℚ → ℚ) (parms : List ℚ) : List ℚ × List ℚ :=
  fillTables ex parms
    ((parms.getD 12 0 - parms.getD 11 0) / (castUInt (parms.getD 10 0) : ℚ))
    true (castUInt (parms.getD 10 0) + 1) (parms.getD 11 0) 0

/-- C7: after the 13-scalar parametric fill in tau/inf mode, each entry of
the final tables is `A[i] = inf[i]/tau[i]`, `B[i] = 1/tau[i]` computed
from the raw sampled curves, except that wherever `|tau[i]|` falls below
the singularity threshold both entries repeat the transformed values of
the previous index, and `0` at index `0`. -/
theorem hhgate_setupTables_tauinf_transform (ex : ℚ → ℚ) (g : HHGate)
    (parms : List ℚ) (h10 : ¬ parms.getD 10 0 < 1) (i : ℕ)
    (hi : i < castUInt (parms.getD 10 0) + 1) :
    (|(tauRaw ex parms).1.getD i 0| < SINGULARITY →
      (g.setupTables ex parms true).A.getD i 0 =
        (if i = 0 then 0 else (g.setupTables ex parms true).A.getD (i - 1) 0) ∧
      (g.setupTables ex parms true).B.getD i 0 =
        (if i = 0 then 0 else (g.setupTables ex parms true).B.getD (i - 1) 0)) ∧
    (¬ |(tauRaw ex parms).1.getD i 0| < SINGULARITY →
      (g.setupTables ex parms true).A.getD i 0 =
        (tauRaw ex parms).2.getD i 0 / (tauRaw ex parms).1.getD i 0 ∧
      (g.setupTables ex parms true).B.getD i 0 =
        1 / (tauRaw ex parms).1.getD i 0) := by
  have hA : (g.setupTables ex parms true).A =
      (tweakTauInf 0 0 (tauRaw ex parms).1 (tauRaw ex parms).2).1 := by
    simp only [HHGate.setupTables, tauRaw]
    rw [if_neg h10]
    simp
  have hB : (g.setupTables ex parms true).B =
      (tweakTauInf 0 0 (tauRaw ex parms).1 (tauRaw ex parms).2).2 := by
    simp only [HHGate.setupTables, tauRaw]
    rw [if_neg h10]
    simp
  have hlen1 : (tauRaw ex parms).1.length = castUInt (parms.getD 10 0) + 1 := by
    simp only [tauRaw]
    exact (fillTables_length ex parms _ true _ _ _).1
  have hlen2 : (tauRaw ex parms).2.length = castUInt (parms.getD 10 0) + 1 := by
    simp only [tauRaw]
    exact (fillTables_length ex parms _ true _ _ _).2
  have hspec := tweakTauInf_spec (tauRaw ex parms).1 (tauRaw ex parms).2 0 0 i
    (by rw [hlen1]; exact hi) (by rw [hlen1, hlen2])
  rw [hA, hB]
  exact hspec

/-- C7 witness: the 13-scalar vector `[1,0,1,0,1, 1,0,1,0,1, 2, 0, 1]`
with the stand-in exponential, where `tau ≡ 1/2` and `inf ≡ 1/2`:
`A[0] = inf/tau = 1` and `B[0] = 1/tau = 2`. -/
def parmsC7 : List ℚ := [1, 0, 1, 0, 1, 1, 0, 1, 0, 1, 2, 0, 1]

/-- C7 witness: the transform theorem applied at `parmsC7` and index `0`. -/
theorem hhgate_setupTables_tauinf_transform_witness :
    (gateEx.setupTables exOne parmsC7 true).A.getD 0 0 = 1 ∧
    (gateEx.setupTables exOne parmsC7 true).B.getD 0 0 = 2 := by
  have hraw1 : (tauRaw exOne parmsC7).1.getD 0 0 = 1 / 2 := by
    simp only [tauRaw, parmsC7, fillTables, fillA, fillB, castUInt, exOne, SINGULARITY]
    norm_num
  have hraw2 : (tauRaw exOne parmsC7).2.getD 0 0 = 1 / 2 := by
    simp only [tauRaw, parmsC7, fillTables, fillA, fillB, castUInt, exOne, SINGULARITY]
    norm_num
  have h := (hhgate_setupTables_tauinf_transform exOne gateEx parmsC7
    (by norm_num [parmsC7]) 0 (by norm_num)).2
  rw [hraw1, hraw2] at h
  have h2 := h (by
    rw [SINGULARITY, abs_of_pos (by norm_num : (0 : ℚ) < 1 / 2)]
    norm_num)
  rw [h2.1, h2.2]
  norm_num

/-- `HHGate::tabFill(table, newXdivs, newXmin, newXmax)`: reject fewer
than 3 divisions; otherwise resize the vector and overwrite each entry in
place with `lookupTable(table, newXmin + i * newDx)` — the lookup reads
the *same, partially overwritten* vector (the local copy `old` made by
the source is never read) and uses the gate's current member range and
`invDx_`, with `lookupByInterpolation_` forced on for the duration. -/
def HHGate.tabFill (g : HHGate) (table : List ℚ) (newXdivs : ℕ)
    (newXmin newXmax : ℚ) : List ℚ :=
  if newXdivs < 3 then table
  else
    let newDx := (newXmax - newXmin) / (newXdivs : ℚ)
    let gi := { g with lookupByInterpolation := true }
    (List.range (newXdivs + 1)).foldl
      (fun t i => t.set i (gi.lookupTable t (newXmin + (i : ℚ) * newDx)))
      (resizeList table (newXdivs + 1))

/-- `HHGate::setMin`: under the original-owner guard, store the new
minimum; on a direct table with at least one division, recompute `invDx_`
and run `tabFill` on both tables against the updated range; otherwise
rebuild from the parametric form. -/
def HHGate.setMin (ex : ℚ → ℚ) (g : HHGate) (id : ℕ) (val : ℚ) :
    HHGate × Bool :=
  if g.checkOriginal id then
    let g1 := { g with xmin := val }
    let xdivs : ℕ := g1.A.length - 1
    if g1.isDirectTable ∧ 0 < xdivs then
      let g2 := { g1 with invDx := (xdivs : ℚ) / (g1.xmax - val) }
      let g3 := { g2 with A := g2.tabFill g2.A xdivs val g2.xmax }
      ({ g3 with B := g3.tabFill g3.B xdivs val g3.xmax }, false)
    else (g1.updateTables ex, false)
  else (g, true)

/-- `HHGate::setMax`: mirror image of `setMin`. -/
def HHGate.setMax (ex : ℚ → ℚ) (g : HHGate) (id : ℕ) (val : ℚ) :
    HHGate × Bool :=
  if g.checkOriginal id then
    let g1 := { g with xmax := val }
    let xdivs : ℕ := g1.A.length - 1
    if g1.isDirectTable ∧ 0 < xdivs then
      let g2 := { g1 with invDx := (xdivs : ℚ) / (val - g1.xmin) }
      let g3 := { g2 with A := g2.tabFill g2.A xdivs g2.xmin val }
      ({ g3 with B := g3.tabFill g3.B xdivs g3.xmin val }, false)
    else (g1.updateTables ex, false)
  else (g, true)

/-- `HHGate::setDivs`: under the original-owner guard, on a direct table
recompute `invDx_` and `tabFill` both tables to the new division count;
otherwise resize both tables and rebuild from the parametric form. -/
def HHGate.setDivs (ex : ℚ → ℚ) (g : HHGate) (id : ℕ) (val : ℕ) :
    HHGate × Bool :=
  if g.checkOriginal id then
    if g.isDirectTable then
      let g1 := { g with invDx := (val : ℚ) / (g.xmax - g.xmin) }
      let g2 := { g1 with A := g1.tabFill g1.A val g1.xmin g1.xmax }
      ({ g2 with B := g2.tabFill g2.B val g2.xmin g2.xmax }, false)
    else
      let g1 := { g with A := resizeList g.A (val + 1),
                         B := resizeList g.B (val + 1),
                         invDx := (val : ℚ) / (g.xmax - g.xmin) }
      (g1.updateTables ex, false)
  else (g, true)

/-- C6 failing input: a direct-table gate with `A = B = [0, 1, 2, 3]`
sampled over `[0, 3]` (`divs = 3`). -/
def gateC6 : HHGate :=
  { A := [0, 1, 2, 3], B := [0, 1, 2, 3], xmin := 0, xmax := 3, invDx := 1,
    form := 0, alphaExpr := "", betaExpr := "", lookupByInterpolation := false,
    isDirectTable := true, alpha := [], beta := [], tau := [],
    mInfinity := [], originalId := 1 }

/-- C6: `setMin(-3)` on `gateC6` through the original owner leaves the
table entries `[0, 1, 2, 3]` untouched instead of re-sampling them into
the new grid over `[-3, 3]`, which by linear interpolation against the old
grid would give `[0, 0, 1, 3]`: `tabFill` reads the very vector it is
overwriting, against the already-updated member range, so each write is
the identity. -/
theorem hhgate_setMin_no_resample :
    (gateC6.setMin exOne 1 (-3)).1.A = [0, 1, 2, 3] ∧
    (gateC6.setMin exOne 1 (-3)).1.A ≠ [0, 0, 1, 3] ∧
    (gateC6.setMin exOne 1 (-3)).1.xmin = -3 := by
  have heval : (gateC6.setMin exOne 1 (-3)).1 =
      { gateC6 with xmin := -3, invDx := 1 / 2 } := by
    simp only [HHGate.setMin, HHGate.checkOriginal, gateC6, HHGate.tabFill,
      resizeList, castUInt, HHGate.lookupTable]
    norm_num [List.range_succ, List.set, exOne,
      (show Int.toNat 2 = 2 from rfl), (show Int.toNat 1 = 1 from rfl),
      (show Int.toNat 0 = 0 from rfl)]
  rw [heval]
  norm_num [gateC6]

/-- `HHGate::setAlphaExpr`: under the original-owner guard, set
`form_ = 1` and store the alpha expression string. -/
def HHGate.setAlphaExpr (g : HHGate) (id : ℕ) (expr : String) :
    HHGate × Bool :=
  if g.checkOriginal id then ({ g with form := 1, alphaExpr := expr }, false)
  else (g, true)

/-- `HHGate::setBetaExpr`: under the original-owner guard, set `form_ = 1`
and store the beta expression string. -/
def HHGate.setBetaExpr (g : HHGate) (id : ℕ) (expr : String) :
    HHGate × Bool :=
  if g.checkOriginal id then ({ g with form := 1, betaExpr := expr }, false)
  else (g, true)

/-- `HHGate::setTauExpr`: under the original-owner guard, set `form_ = 2`
and store the tau expression in the `alphaExpr_` slot. -/
def HHGate.setTauExpr (g : HHGate) (id : ℕ) (expr : String) :
    HHGate × Bool :=
  if g.checkOriginal id then ({ g with form := 2, alphaExpr := expr }, false)
  else (g, true)

/-- `HHGate::setInfExpr`: under the original-owner guard, set `form_ = 2`
and store the inf expression in the `betaExpr_` slot. -/
def HHGate.setInfExpr (g : HHGate) (id : ℕ) (expr : String) :
    HHGate × Bool :=
  if g.checkOriginal id then ({ g with form := 2, betaExpr := expr }, false)
  else (g, true)

/-- `HHGate::setTableA`: reject a vector shorter than 2 entries with a
warning; under the original-owner guard, mark the table direct, store it,
recompute `invDx_`, and set `form_ = 0`. -/
def HHGate.setTableA (g : HHGate) (id : ℕ) (v : List ℚ) : HHGate × Bool :=
  if v.length < 2 then (g, true)
  else if g.checkOriginal id then
    ({ g with isDirectTable := true, A := v,
              invDx := ((v.length - 1 : ℕ) : ℚ) / (g.xmax - g.xmin),
              form := 0 }, false)
  else (g, true)

/-- `HHGate::setTableB`: under the original-owner guard, mark the table
direct; reject a size differing from table A with a warning (the direct
mark is kept, as in the source); otherwise store and set `form_ = 0`. -/
def HHGate.setTableB (g : HHGate) (id : ℕ) (v : List ℚ) : HHGate × Bool :=
  if g.checkOriginal id then
    if g.A.length ≠ v.length then ({ g with isDirectTable := true }, true)
    else ({ g with isDirectTable := true, B := v, form := 0 }, false)
  else (g, true)

/-- `HHGate::setUseInterpolation`: under the original-owner guard, store
the flag. -/
def HHGate.setUseInterpolation (g : HHGate) (id : ℕ) (val : Bool) :
    HHGate × Bool :=
  if g.checkOriginal id then ({ g with lookupByInterpolation := val }, false)
  else (g, true)

/-- `HHGate::setAlpha`: reject a parameter vector whose size differs from
5; under the original-owner guard, store `alpha_` and rebuild the tables
(`updateTauMinf` is an empty body in the source). -/
def HHGate.setAlpha (ex : ℚ → ℚ) (g : HHGate) (id : ℕ) (val : List ℚ) :
    HHGate × Bool :=
  if val.length ≠ 5 then (g, true)
  else if g.checkOriginal id then
    (HHGate.updateTables ex { g with alpha := val }, false)
  else (g, true)

/-- `HHGate::setBeta`: as `setAlpha`, for `beta_`. -/
def HHGate.setBeta (ex : ℚ → ℚ) (g : HHGate) (id : ℕ) (val : List ℚ) :
    HHGate × Bool :=
  if val.length ≠ 5 then (g, true)
  else if g.checkOriginal id then
    (HHGate.updateTables ex { g with beta := val }, false)
  else (g, true)

/-- `HHGate::setTau`: reject a parameter vector whose size differs from 5;
under the original-owner guard, store `tau_` and rebuild the tables
(`updateAlphaBeta` is an empty body in the source, so the rebuild still
uses the stored `alpha_`/`beta_`). -/
def HHGate.setTau (ex : ℚ → ℚ) (g : HHGate) (id : ℕ) (val : List ℚ) :
    HHGate × Bool :=
  if val.length ≠ 5 then (g, true)
  else if g.checkOriginal id then
    (HHGate.updateTables ex { g with tau := val }, false)
  else (g, true)

/-- `HHGate::setMinfinity`: as `setTau`, for `mInfinity_`. -/
def HHGate.setMinfinity (ex : ℚ → ℚ) (g : HHGate) (id : ℕ) (val : List ℚ) :
    HHGate × Bool :=
  if val.length ≠ 5 then (g, true)
  else if g.checkOriginal id then
    (HHGate.updateTables ex { g with mInfinity := val }, false)
  else (g, true)

/-- C9: every mutating operation of the gate invoked with a caller
identifier other than the original owner's is a no-op — the returned gate
state, including tables `A` and `B`, `min`, `max`, `divs` (derived from
the table length), `form`, and the expression strings, is exactly the
pre-call state — and the warning flag is raised. -/
theorem hhgate_mutators_reject_nonoriginal (g : HHGate) (id : ℕ)
    (hid : id ≠ g.originalId) (ex : ℚ → ℚ) (s : String) (v : List ℚ)
    (q : ℚ) (b : Bool) (n : ℕ) :
    g.setAlphaExpr id s = (g, true) ∧
    g.setBetaExpr id s = (g, true) ∧
    g.setTauExpr id s = (g, true) ∧
    g.setInfExpr id s = (g, true) ∧
    g.setMin ex id q = (g, true) ∧
    g.setMax ex id q = (g, true) ∧
    g.setDivs ex id n = (g, true) ∧
    g.setTableA id v = (g, true) ∧
    g.setTableB id v = (g, true) ∧
    g.setUseInterpolation id b = (g, true) ∧
    g.setupAlpha ex id v = (g, true) ∧
    g.setupTau ex id v = (g, true) ∧
    g.setAlpha ex id v = (g, true) ∧
    g.setBeta ex id v = (g, true) ∧
    g.setTau ex id v = (g, true) ∧
    g.setMinfinity ex id v = (g, true) := by
  have hchk : g.checkOriginal id = false := by
    simp [HHGate.checkOriginal, hid]
  refine ⟨?_, ?_, ?_, ?_, ?_, ?_, ?_, ?_, ?_, ?_, ?_, ?_, ?_, ?_, ?_, ?_⟩ <;>
    simp only [HHGate.setAlphaExpr, HHGate.setBetaExpr, HHGate.setTauExpr,
      HHGate.setInfExpr, HHGate.setMin, HHGate.setMax, HHGate.setDivs,
      HHGate.setTableA, HHGate.setTableB, HHGate.setUseInterpolation,
      HHGate.setupAlpha, HHGate.setupTau, HHGate.setAlpha, HHGate.setBeta,
      HHGate.setTau, HHGate.setMinfinity, hchk, Bool.false_eq_true,
      if_false] <;>
    split_ifs <;> rfl

/-- C9 witness: the rejection theorem applied to the concrete gate
`gateEx` (owner identifier `1`) with a foreign caller identifier `2`. -/
theorem hhgate_mutators_reject_nonoriginal_witness :
    gateEx.setAlphaExpr 2 "v" = (gateEx, true) ∧
    gateEx.setTableA 2 [1, 2, 3] = (gateEx, true) ∧
    gateEx.setMin exOne 2 (-1) = (gateEx, true) := by
  have h := hhgate_mutators_reject_nonoriginal gateEx 2
    (by norm_num [gateEx]) exOne "v" [1, 2, 3] (-1) true 4
  exact ⟨h.1, h.2.2.2.2.2.2.2.1, h.2.2.2.2.1⟩

/-- State of a 2-D formula gate, `HHGateF2D` of `HHGateF2D.cpp`.  The
compiled exprtk expressions `alpha_` and `beta_` are embedded as the pure
functions `alphaF`/`betaF` of the two bound variables (modelled from the
spec, which requires an expression to be a pure function of its inputs);
`v` and `conc` are the gate's bound input variables `v_`/`conc_`, which
expression evaluation reads.  In tau/inf mode (`tauInf_`), `alpha_` holds
the tau expression and `beta_` the inf expression. -/
structure HHGateF2D where
  alphaF : ℚ → ℚ → ℚ
  betaF : ℚ → ℚ → ℚ
  v : ℚ
  conc : ℚ
  tauInf : Bool
  originalChanId : ℕ

/-- `HHGateF2D::lookupA(v)`: reject a vector with fewer than 2 entries
(returning `0.0` and leaving the bound inputs untouched); otherwise store
`v[0]`/`v[1]` into the bound variables (entries past the first two are
ignored) and evaluate `beta/alpha` in tau/inf mode, `alpha` otherwise. -/
def HHGateF2D.lookupA (g : HHGateF2D) (vec : List ℚ) : ℚ × HHGateF2D :=
  if vec.length < 2 then (0, g)
  else
    let g1 : HHGateF2D := { g with v := vec.getD 0 0, conc := vec.getD 1 0 }
    if g1.tauInf then (g1.betaF g1.v g1.conc / g1.alphaF g1.v g1.conc, g1)
    else (g1.alphaF g1.v g1.conc, g1)

/-- `HHGateF2D::lookupB(v)`: reject a vector with fewer than 2 entries
(returning `0.0`); otherwise evaluate `1/alpha` in tau/inf mode and
`alpha + beta` otherwise — the passed entries are never stored into the
bound variables, so evaluation happens at whatever inputs the gate last
stored. -/
def HHGateF2D.lookupB (g : HHGateF2D) (vec : List ℚ) : ℚ × HHGateF2D :=
  if vec.length < 2 then (0, g)
  else if g.tauInf then (1 / g.alphaF g.v g.conc, g)
  else (g.alphaF g.v g.conc + g.betaF g.v g.conc, g)

/-- `HHGateF2D::lookupBoth(v, c, A, B)`: `lookupA` on `{v, c}` followed by
`lookupB` on `{v, c}`. -/
def HHGateF2D.lookupBoth (g : HHGateF2D) (v c : ℚ) : ℚ × ℚ × HHGateF2D :=
  let ra := g.lookupA [v, c]
  let rb := ra.2.lookupB [v, c]
  (ra.1, rb.1, rb.2)

/-- C4 failing input: an alpha/beta-form gate whose alpha expression is
`v` and whose beta expression is `c`, with bound inputs last set to
`(1, 2)`. -/
def gateC4 : HHGateF2D :=
  { alphaF := fun a _ => a, betaF := fun _ c => c, v := 1, conc := 2,
    tauInf := false, originalChanId := 1 }

/-- C4: calling `lookupB` with the input vector `[10, 20]` on `gateC4`
returns `alpha + beta` evaluated at the stored inputs `(1, 2)` — i.e.
`3` — not at the passed `(10, 20)`, which would give `30`; the stored
inputs are also left unchanged.  Through `lookupBoth(v, c)`, which runs
`lookupA` on the same pair first, `B` does come out at `(v, c)`. -/
theorem hhgatef2d_lookupB_stale_input :
    (gateC4.lookupB [10, 20]).1 = 3 ∧
    (gateC4.lookupB [10, 20]).1 ≠ 30 ∧
    (gateC4.lookupB [10, 20]).2 = gateC4 ∧
    (gateC4.lookupBoth 10 20).2.1 = 30 := by
  refine ⟨?_, by norm_num [HHGateF2D.lookupB, gateC4], rfl, ?_⟩
  · norm_num [HHGateF2D.lookupB, gateC4]
  · norm_num [HHGateF2D.lookupBoth, HHGateF2D.lookupA, HHGateF2D.lookupB, gateC4]

/-- C10: for every 2-D formula gate, `lookupA` and `lookupB` on a vector
with fewer than two entries return `0.0` with the gate state (in
particular the stored inputs) unchanged, and on a vector with more than
two entries they return exactly what they return on its first two
entries. -/
theorem hhgatef2d_lookup_arity (g : HHGateF2D) (vec : List ℚ) :
    (vec.length < 2 →
      g.lookupA vec = (0, g) ∧ g.lookupB vec = (0, g)) ∧
    (2 < vec.length →
      g.lookupA vec = g.lookupA (vec.take 2) ∧
      g.lookupB vec = g.lookupB (vec.take 2)) := by
  constructor
  · intro hshort
    constructor
    · simp [HHGateF2D.lookupA, hshort]
    · simp [HHGateF2D.lookupB, hshort]
  · intro hlong
    have htk : (vec.take 2).length = 2 := by
      simp [List.length_take]
      omega
    have hnshort : ¬ vec.length < 2 := by omega
    have hnshort2 : ¬ (vec.take 2).length < 2 := by omega
    have hg0 : vec.getD 0 0 = (vec.take 2).getD 0 0 := by
      rcases vec with _ | ⟨a, _ | ⟨b, t⟩⟩ <;> simp_all
    have hg1 : vec.getD 1 0 = (vec.take 2).getD 1 0 := by
      rcases vec with _ | ⟨a, _ | ⟨b, t⟩⟩ <;> simp_all
    constructor
    · simp only [HHGateF2D.lookupA, if_neg hnshort, if_neg hnshort2, hg0, hg1]
    · simp only [HHGateF2D.lookupB, if_neg hnshort, if_neg hnshort2]

/-- C10 witness: the arity theorem applied to `gateC4` with the vectors
`[5]` (too short: result `0`, state unchanged) and `[7, 8, 9]` (too long:
same result as on `[7, 8]`). -/
theorem hhgatef2d_lookup_arity_witness :
    gateC4.lookupA [5] = (0, gateC4) ∧
    gateC4.lookupB [5] = (0, gateC4) ∧
    gateC4.lookupA [7, 8, 9] = gateC4.lookupA [7, 8] ∧
    gateC4.lookupB [7, 8, 9] = gateC4.lookupB [7, 8] := by
  have h1 := (hhgatef2d_lookup_arity gateC4 [5]).1 (by norm_num)
  have h2 := (hhgatef2d_lookup_arity gateC4 [7, 8, 9]).2 (by norm_num)
  exact ⟨h1.1, h1.2, by simpa using h2.1, by simpa using h2.2⟩

/-- State of a 2-D channel, `HHChannelF2D` of `HHChannelF2D.cpp`, with the
fields inherited from `ChanCommon`/`HHChannelBase` that its `vProcess`/
`vReinit` read and write.  The gate pointers are embedded as plain gate
values (a gate is present whenever its power is positive; a missing gate
with positive power is fatal in the source and is outside this model). -/
structure HHChannelF2D where
  Vm : ℚ
  conc1 : ℚ
  conc2 : ℚ
  Xpower : ℚ
  Ypower : ℚ
  Zpower : ℚ
  X : ℚ
  Y : ℚ
  Z : ℚ
  xInited : Bool
  yInited : Bool
  zInited : Bool
  instant : ℕ
  Xindex : String
  Yindex : String
  Zindex : String
  Xdep0 : ℤ
  Xdep1 : ℤ
  Ydep0 : ℤ
  Ydep1 : ℤ
  Zdep0 : ℤ
  Zdep1 : ℤ
  xGate : HHGateF2D
  yGate : HHGateF2D
  zGate : HHGateF2D
  Gbar : ℚ
  Ek : ℚ
  Gk : ℚ
  Ik : ℚ
  g : ℚ
  modulation : ℚ

/-- Dimension-0 half of the static policy map built inside
`HHChannelF2D::dependency`. -/
def depMap0 (index : String) : Option ℤ :=
  if index = "VOLT_INDEX" then some 0
  else if index = "C1_INDEX" then some 1
  else if index = "C2_INDEX" then some 2
  else if index = "VOLT_C1_INDEX" then some 0
  else if index = "VOLT_C2_INDEX" then some 0
  else if index = "C1_C2_INDEX" then some 1
  else none

/-- Dimension-1 half of the static policy map built inside
`HHChannelF2D::dependency`. -/
def depMap1 (index : String) : Option ℤ :=
  if index = "VOLT_INDEX" then some (-1)
  else if index = "C1_INDEX" then some (-1)
  else if index = "C2_INDEX" then some (-1)
  else if index = "VOLT_C1_INDEX" then some 1
  else if index = "VOLT_C2_INDEX" then some 2
  else if index = "C1_C2_INDEX" then some 2
  else none

/-- `HHChannelF2D::dependency(index, dim)`: absent map entries give `-1`;
present entries pass through `0`, `1`, `2` and collapse anything else
(the stored `-1` markers) to `-1`. -/
def HHChannelF2D.dependency (index : String) (dim : ℕ) : ℤ :=
  match (if dim = 0 then depMap0 index else depMap1 index) with
  | none => -1
  | some d => if d = 0 then 0 else if d = 1 then 1 else if d = 2 then 2 else -1

/-- `HHChannelF2D::setXindex`: a string equal to the current one is a
no-op; otherwise the string is stored and both dependency slots are
recomputed (an `assert(Xdep0_ >= 0)` follows in the source, which an
unrecognised string violates). -/
def HHChannelF2D.setXindex (ch : HHChannelF2D) (s : String) : HHChannelF2D :=
  if s = ch.Xindex then ch
  else { ch with Xindex := s, Xdep0 := HHChannelF2D.dependency s 0,
                 Xdep1 := HHChannelF2D.dependency s 1 }

/-- `HHChannelF2D::setYindex`: as `setXindex`, for the Y gate. -/
def HHChannelF2D.setYindex (ch : HHChannelF2D) (s : String) : HHChannelF2D :=
  if s = ch.Yindex then ch
  else { ch with Yindex := s, Ydep0 := HHChannelF2D.dependency s 0,
                 Ydep1 := HHChannelF2D.dependency s 1 }

/-- `HHChannelF2D::setZindex`: as `setXindex`, for the Z gate. -/
def HHChannelF2D.setZindex (ch : HHChannelF2D) (s : String) : HHChannelF2D :=
  if s = ch.Zindex then ch
  else { ch with Zindex := s, Zdep0 := HHChannelF2D.dependency s 0,
                 Zdep1 := HHChannelF2D.dependency s 1 }

/-- `HHChannelF2D::depValue(dep)`: select `Vm_`, `conc1_` or `conc2_`;
any other value asserts in the source and falls back to `0.0`. -/
def HHChannelF2D.depValue (ch : HHChannelF2D) (dep : ℤ) : ℚ :=
  if dep = 0 then ch.Vm
  else if dep = 1 then ch.conc1
  else if dep = 2 then ch.conc2
  else 0

/-- Modelled from the spec: `HHChannelBase::integrate` is not among the
sources at hand; the spec gives the exponential-Euler / Crank-Nicolson
update `g_new = (g·(2/dt − B) + 2·A) / (2/dt + B)`. -/
def HHChannelBase.integrate (state dt A B : ℚ) : ℚ :=
  (state * (2 / dt - B) + 2 * A) / (2 / dt + B)

/-- Modelled from the spec: the `takeXpower_` family of `HHChannelBase`
is not among the sources at hand; the spec specifies raising the gate
state to its integer power (repeated multiplication for small powers and
a generic path otherwise). -/
def takePower (x p : ℚ) : ℚ :=
  x ^ castUInt p

/-- One gate block of `HHChannelF2D::vProcess`: with positive power, look
up `(A, B)` at the routed inputs, then either clamp the state to `A/B`
(instant bit set) or advance it by `integrate`, and multiply the updated
state's power into the running conductance; with power zero nothing
happens.  Returns the running conductance, the state and the gate (whose
bound inputs the lookup updated). -/
def processGate (gate : HHGateF2D) (d0 d1 power state dt : ℚ)
    (instBit : Bool) (gacc : ℚ) : ℚ × ℚ × HHGateF2D :=
  if 0 < power then
    let r := gate.lookupBoth d0 d1
    let s := if instBit then r.1 / r.2.1
             else HHChannelBase.integrate state dt r.1 r.2.1
    (gacc * takePower s power, s, r.2.2)
  else (gacc, state, gate)

/-- `HHChannelF2D::vProcess`: accumulate `Gbar` into `g_`, run the three
gate blocks in X, Y, Z order, set `Gk = g_ · modulation`, update
`Ik = (Ek − Vm) · Gk`, send the messages, and clear `g_`. -/
def HHChannelF2D.vProcess (ch : HHChannelF2D) (dt : ℚ) : HHChannelF2D :=
  let pX := processGate ch.xGate (ch.depValue ch.Xdep0) (ch.depValue ch.Xdep1)
    ch.Xpower ch.X dt ((ch.instant &&& INSTANT_X) != 0) (ch.g + ch.Gbar)
  let pY := processGate ch.yGate (ch.depValue ch.Ydep0) (ch.depValue ch.Ydep1)
    ch.Ypower ch.Y dt ((ch.instant &&& INSTANT_Y) != 0) pX.1
  let pZ := processGate ch.zGate (ch.depValue ch.Zdep0) (ch.depValue ch.Zdep1)
    ch.Zpower ch.Z dt ((ch.instant &&& INSTANT_Z) != 0) pY.1
  let gk := pZ.1 * ch.modulation
  { ch with X := pX.2.1, xGate := pX.2.2, Y := pY.2.1, yGate := pY.2.2,
            Z := pZ.2.1, zGate := pZ.2.2, Gk := gk,
            Ik := (ch.Ek - ch.Vm) * gk, g := 0 }

/-- One gate block of `HHChannelF2D::vReinit`: with positive power, look
up `(A, B)` at the routed inputs; if `B < EPSILON` the block fails (the
source warns and returns from the whole reinit), delivering the mutated
gate; otherwise set the state to `A/B` unless pre-initialised, and fold
its power into the running conductance. -/
def reinitGate (gate : HHGateF2D) (d0 d1 power state : ℚ) (inited : Bool)
    (gacc : ℚ) : Except HHGateF2D (ℚ × ℚ × HHGateF2D) :=
  if 0 < power then
    let r := gate.lookupBoth d0 d1
    if r.2.1 < EPSILON then Except.error r.2.2
    else
      let s := if inited then state else r.1 / r.2.1
      Except.ok (gacc * takePower s power, s, r.2.2)
  else Except.ok (gacc, state, gate)

/-- `HHChannelF2D::vReinit`: start the running conductance at `Gbar` and
run the gate blocks in X, Y, Z order.  A failing block aborts the whole
reinit: earlier blocks' state assignments stand, the failing and all
later gates keep their previous state, `Gk`/`Ik` are not updated, no
messages are sent, and `g_` keeps the value accumulated so far.  When all
blocks pass, `Gk = g_ · modulation` and `Ik = (Ek − Vm) · Gk` are set,
the reinit messages are sent (second component `true`) and `g_` is
cleared. -/
def HHChannelF2D.vReinit (ch : HHChannelF2D) : HHChannelF2D × Bool :=
  match reinitGate ch.xGate (ch.depValue ch.Xdep0) (ch.depValue ch.Xdep1)
    ch.Xpower ch.X ch.xInited ch.Gbar with
  | Except.error xg => ({ ch with xGate := xg, g := ch.Gbar }, false)
  | Except.ok (g1, x1, xg) =>
    match reinitGate ch.yGate (ch.depValue ch.Ydep0) (ch.depValue ch.Ydep1)
      ch.Ypower ch.Y ch.yInited g1 with
    | Except.error yg =>
      ({ ch with xGate := xg, X := x1, yGate := yg, g := g1 }, false)
    | Except.ok (g2, y1, yg) =>
      match reinitGate ch.zGate (ch.depValue ch.Zdep0) (ch.depValue ch.Zdep1)
        ch.Zpower ch.Z ch.zInited g2 with
      | Except.error zg =>
        ({ ch with xGate := xg, X := x1, yGate := yg, Y := y1, zGate := zg,
                   g := g2 }, false)
      | Except.ok (g3, z1, zg) =>
        let gk := g3 * ch.modulation
        ({ ch with xGate := xg, X := x1, yGate := yg, Y := y1, zGate := zg,
                   Z := z1, Gk := gk, Ik := (ch.Ek - ch.Vm) * gk, g := 0 },
         true)

/-- C2: on a process step, each gate with positive power has its state
variable replaced — by `A/B` from the lookup at the routed inputs when
its instant bit is set, and by the exponential-Euler / Crank-Nicolson
update `(g·(2/dt − B) + 2·A) / (2/dt + B)` otherwise, with `dt` the
tick's time step. -/
theorem hhchannelf2d_process_gate_updates (ch : HHChannelF2D) (dt : ℚ) :
    (0 < ch.Xpower →
      (ch.vProcess dt).X =
        (if (ch.instant &&& INSTANT_X) != 0 then
          (ch.xGate.lookupBoth (ch.depValue ch.Xdep0) (ch.depValue ch.Xdep1)).1 /
            (ch.xGate.lookupBoth (ch.depValue ch.Xdep0) (ch.depValue ch.Xdep1)).2.1
        else
          HHChannelBase.integrate ch.X dt
            (ch.xGate.lookupBoth (ch.depValue ch.Xdep0) (ch.depValue ch.Xdep1)).1
            (ch.xGate.lookupBoth (ch.depValue ch.Xdep0) (ch.depValue ch.Xdep1)).2.1)) ∧
    (0 < ch.Ypower →
      (ch.vProcess dt).Y =
        (if (ch.instant &&& INSTANT_Y) != 0 then
          (ch.yGate.lookupBoth (ch.depValue ch.Ydep0) (ch.depValue ch.Ydep1)).1 /
            (ch.yGate.lookupBoth (ch.depValue ch.Ydep0) (ch.depValue ch.Ydep1)).2.1
        else
          HHChannelBase.integrate ch.Y dt
            (ch.yGate.lookupBoth (ch.depValue ch.Ydep0) (ch.depValue ch.Ydep1)).1
            (ch.yGate.lookupBoth (ch.depValue ch.Ydep0) (ch.depValue ch.Ydep1)).2.1)) ∧
    (0 < ch.Zpower →
      (ch.vProcess dt).Z =
        (if (ch.instant &&& INSTANT_Z) != 0 then
          (ch.zGate.lookupBoth (ch.depValue ch.Zdep0) (ch.depValue ch.Zdep1)).1 /
            (ch.zGate.lookupBoth (ch.depValue ch.Zdep0) (ch.depValue ch.Zdep1)).2.1
        else
          HHChannelBase.integrate ch.Z dt
            (ch.zGate.lookupBoth (ch.depValue ch.Zdep0) (ch.depValue ch.Zdep1)).1
            (ch.zGate.lookupBoth (ch.depValue ch.Zdep0) (ch.depValue ch.Zdep1)).2.1)) := by
  refine ⟨?_, ?_, ?_⟩ <;> intro hp <;>
    simp only [HHChannelF2D.vProcess, processGate] <;>
    rw [if_pos hp]

/-- A 2-D formula gate whose alpha and beta expressions are the constant
`1`, giving the lookup pair `(A, B) = (1, 2)` in alpha/beta form. -/
def gateOne : HHGateF2D :=
  { alphaF := fun _ _ => 1, betaF := fun _ _ => 1, v := 0, conc := 0,
    tauInf := false, originalChanId := 1 }

/-- A concrete channel with only the X gate active (`Xpower = 1`), its
input bound to `Vm`, no instant bits, and state `X = 0`. -/
def chanEx : HHChannelF2D :=
  { Vm := 0, conc1 := 0, conc2 := 0, Xpower := 1, Ypower := 0, Zpower := 0,
    X := 0, Y := 0, Z := 0, xInited := false, yInited := false,
    zInited := false, instant := 0, Xindex := "VOLT_INDEX",
    Yindex := "VOLT_INDEX", Zindex := "VOLT_INDEX", Xdep0 := 0, Xdep1 := -1,
    Ydep0 := 0, Ydep1 := -1, Zdep0 := 0, Zdep1 := -1, xGate := gateOne,
    yGate := gateOne, zGate := gateOne, Gbar := 1, Ek := 0, Gk := 0, Ik := 0,
    g := 0, modulation := 1 }

/-- C2 witness: the process theorem applied to `chanEx` with `dt = 1`:
the X gate sees `(A, B) = (1, 2)` and advances from `0` to
`(0·(2 − 2) + 2·1)/(2 + 2) = 1/2`. -/
theorem hhchannelf2d_process_gate_updates_witness :
    (chanEx.vProcess 1).X = 1 / 2 := by
  have h := (hhchannelf2d_process_gate_updates chanEx 1).1
    (by norm_num [chanEx])
  rw [h]
  norm_num [chanEx, gateOne, HHGateF2D.lookupBoth, HHGateF2D.lookupA,
    HHGateF2D.lookupB, HHChannelF2D.depValue, HHChannelBase.integrate,
    INSTANT_X]

lemma reinitGate_abort (gate : HHGateF2D) (d0 d1 power state : ℚ)
    (inited : Bool) (gacc : ℚ) (hp : 0 < power)
    (hb : (gate.lookupBoth d0 d1).2.1 < EPSILON) :
    reinitGate gate d0 d1 power state inited gacc =
      Except.error (gate.lookupBoth d0 d1).2.2 := by
  simp only [reinitGate, if_pos hp, if_pos hb]

lemma reinitGate_no_abort (gate : HHGateF2D) (d0 d1 power state : ℚ)
    (inited : Bool) (gacc : ℚ)
    (h : 0 < power → ¬ (gate.lookupBoth d0 d1).2.1 < EPSILON) :
    reinitGate gate d0 d1 power state inited gacc =
      Except.ok
        (if 0 < power then
           gacc * takePower
             (if inited then state
              else (gate.lookupBoth d0 d1).1 / (gate.lookupBoth d0 d1).2.1)
             power
         else gacc,
         if 0 < power then
           (if inited then state
            else (gate.lookupBoth d0 d1).1 / (gate.lookupBoth d0 d1).2.1)
         else state,
         if 0 < power then (gate.lookupBoth d0 d1).2.2 else gate) := by
  by_cases hp : 0 < power
  · simp only [reinitGate, if_pos hp, if_neg (h hp)]
  · simp only [reinitGate, if_neg hp]

/-- C3 amended: `vReinit` queries the gates in X, Y, Z order at the
current inputs and sets each non-pre-initialised active gate's state to
`A/B`; but when a gate's `B` is below the `1e-15` threshold the reinit
warns and returns immediately — that gate and every later gate keep their
previous state, and `Gk`/`Ik` are neither updated nor emitted (second
component `false`).  Gates processed before the failing one keep their
freshly assigned states. -/
theorem hhchannelf2d_reinit_amended (ch : HHChannelF2D)
    (aX bX aY bY aZ bZ : ℚ)
    (hXa : (ch.xGate.lookupBoth (ch.depValue ch.Xdep0) (ch.depValue ch.Xdep1)).1 = aX)
    (hXb : (ch.xGate.lookupBoth (ch.depValue ch.Xdep0) (ch.depValue ch.Xdep1)).2.1 = bX)
    (hYa : (ch.yGate.lookupBoth (ch.depValue ch.Ydep0) (ch.depValue ch.Ydep1)).1 = aY)
    (hYb : (ch.yGate.lookupBoth (ch.depValue ch.Ydep0) (ch.depValue ch.Ydep1)).2.1 = bY)
    (hZa : (ch.zGate.lookupBoth (ch.depValue ch.Zdep0) (ch.depValue ch.Zdep1)).1 = aZ)
    (hZb : (ch.zGate.lookupBoth (ch.depValue ch.Zdep0) (ch.depValue ch.Zdep1)).2.1 = bZ) :
    (0 < ch.Xpower → bX < EPSILON →
      ch.vReinit.1.X = ch.X ∧ ch.vReinit.1.Y = ch.Y ∧ ch.vReinit.1.Z = ch.Z ∧
      ch.vReinit.1.Gk = ch.Gk ∧ ch.vReinit.1.Ik = ch.Ik ∧
      ch.vReinit.2 = false) ∧
    ((0 < ch.Xpower → ¬ bX < EPSILON) → 0 < ch.Ypower → bY < EPSILON →
      ch.vReinit.1.X =
        (if 0 < ch.Xpower then (if ch.xInited then ch.X else aX / bX) else ch.X) ∧
      ch.vReinit.1.Y = ch.Y ∧ ch.vReinit.1.Z = ch.Z ∧
      ch.vReinit.1.Gk = ch.Gk ∧ ch.vReinit.1.Ik = ch.Ik ∧
      ch.vReinit.2 = false) ∧
    ((0 < ch.Xpower → ¬ bX < EPSILON) → (0 < ch.Ypower → ¬ bY < EPSILON) →
     0 < ch.Zpower → bZ < EPSILON →
      ch.vReinit.1.X =
        (if 0 < ch.Xpower then (if ch.xInited then ch.X else aX / bX) else ch.X) ∧
      ch.vReinit.1.Y =
        (if 0 < ch.Ypower then (if ch.yInited then ch.Y else aY / bY) else ch.Y) ∧
      ch.vReinit.1.Z = ch.Z ∧
      ch.vReinit.1.Gk = ch.Gk ∧ ch.vReinit.1.Ik = ch.Ik ∧
      ch.vReinit.2 = false) ∧
    ((0 < ch.Xpower → ¬ bX < EPSILON) → (0 < ch.Ypower → ¬ bY < EPSILON) →
     (0 < ch.Zpower → ¬ bZ < EPSILON) →
      ch.vReinit.1.X =
        (if 0 < ch.Xpower then (if ch.xInited then ch.X else aX / bX) else ch.X) ∧
      ch.vReinit.1.Y =
        (if 0 < ch.Ypower then (if ch.yInited then ch.Y else aY / bY) else ch.Y) ∧
      ch.vReinit.1.Z =
        (if 0 < ch.Zpower then (if ch.zInited then ch.Z else aZ / bZ) else ch.Z) ∧
      ch.vReinit.2 = true) := by
  refine ⟨?_, ?_, ?_, ?_⟩
  · intro hxp hbx
    have hx := reinitGate_abort ch.xGate (ch.depValue ch.Xdep0)
      (ch.depValue ch.Xdep1) ch.Xpower ch.X ch.xInited ch.Gbar hxp
      (by rw [hXb]; exact hbx)
    simp only [HHChannelF2D.vReinit, hx]
    simp
  · intro hxok hyp hby
    have hxok2 : 0 < ch.Xpower →
        ¬ (ch.xGate.lookupBoth (ch.depValue ch.Xdep0) (ch.depValue ch.Xdep1)).2.1 < EPSILON := by
      rw [hXb]; exact hxok
    have hx : ∀ gacc, reinitGate ch.xGate (ch.depValue ch.Xdep0)
        (ch.depValue ch.Xdep1) ch.Xpower ch.X ch.xInited gacc = _ :=
      fun gacc => reinitGate_no_abort ch.xGate (ch.depValue ch.Xdep0)
        (ch.depValue ch.Xdep1) ch.Xpower ch.X ch.xInited gacc hxok2
    have hy : ∀ gacc, reinitGate ch.yGate (ch.depValue ch.Ydep0)
        (ch.depValue ch.Ydep1) ch.Ypower ch.Y ch.yInited gacc =
          Except.error (ch.yGate.lookupBoth (ch.depValue ch.Ydep0)
            (ch.depValue ch.Ydep1)).2.2 :=
      fun gacc => reinitGate_abort ch.yGate (ch.depValue ch.Ydep0)
        (ch.depValue ch.Ydep1) ch.Ypower ch.Y ch.yInited gacc hyp
        (by rw [hYb]; exact hby)
    simp only [HHChannelF2D.vReinit, hx, hy, hXa, hXb]
    simp
  · intro hxok hyok hzp hbz
    have hxok2 : 0 < ch.Xpower →
        ¬ (ch.xGate.lookupBoth (ch.depValue ch.Xdep0) (ch.depValue ch.Xdep1)).2.1 < EPSILON := by
      rw [hXb]; exact hxok
    have hyok2 : 0 < ch.Ypower →
        ¬ (ch.yGate.lookupBoth (ch.depValue ch.Ydep0) (ch.depValue ch.Ydep1)).2.1 < EPSILON := by
      rw [hYb]; exact hyok
    have hx : ∀ gacc, reinitGate ch.xGate (ch.depValue ch.Xdep0)
        (ch.depValue ch.Xdep1) ch.Xpower ch.X ch.xInited gacc = _ :=
      fun gacc => reinitGate_no_abort ch.xGate (ch.depValue ch.Xdep0)
        (ch.depValue ch.Xdep1) ch.Xpower ch.X ch.xInited gacc hxok2
    have hy : ∀ gacc, reinitGate ch.yGate (ch.depValue ch.Ydep0)
        (ch.depValue ch.Ydep1) ch.Ypower ch.Y ch.yInited gacc = _ :=
      fun gacc => reinitGate_no_abort ch.yGate (ch.depValue ch.Ydep0)
        (ch.depValue ch.Ydep1) ch.Ypower ch.Y ch.yInited gacc hyok2
    have hz : ∀ gacc, reinitGate ch.zGate (ch.depValue ch.Zdep0)
        (ch.depValue ch.Zdep1) ch.Zpower ch.Z ch.zInited gacc =
          Except.error (ch.zGate.lookupBoth (ch.depValue ch.Zdep0)
            (ch.depValue ch.Zdep1)).2.2 :=
      fun gacc => reinitGate_abort ch.zGate (ch.depValue ch.Zdep0)
        (ch.depValue ch.Zdep1) ch.Zpower ch.Z ch.zInited gacc hzp
        (by rw [hZb]; exact hbz)
    simp only [HHChannelF2D.vReinit, hx, hy, hz, hXa, hXb, hYa, hYb]
    simp
  · intro hxok hyok hzok
    have hxok2 : 0 < ch.Xpower →
        ¬ (ch.xGate.lookupBoth (ch.depValue ch.Xdep0) (ch.depValue ch.Xdep1)).2.1 < EPSILON := by
      rw [hXb]; exact hxok
    have hyok2 : 0 < ch.Ypower →
        ¬ (ch.yGate.lookupBoth (ch.depValue ch.Ydep0) (ch.depValue ch.Ydep1)).2.1 < EPSILON := by
      rw [hYb]; exact hyok
    have hzok2 : 0 < ch.Zpower →
        ¬ (ch.zGate.lookupBoth (ch.depValue ch.Zdep0) (ch.depValue ch.Zdep1)).2.1 < EPSILON := by
      rw [hZb]; exact hzok
    have hx : ∀ gacc, reinitGate ch.xGate (ch.depValue ch.Xdep0)
        (ch.depValue ch.Xdep1) ch.Xpower ch.X ch.xInited gacc = _ :=
      fun gacc => reinitGate_no_abort ch.xGate (ch.depValue ch.Xdep0)
        (ch.depValue ch.Xdep1) ch.Xpower ch.X ch.xInited gacc hxok2
    have hy : ∀ gacc, reinitGate ch.yGate (ch.depValue ch.Ydep0)
        (ch.depValue ch.Ydep1) ch.Ypower ch.Y ch.yInited gacc = _ :=
      fun gacc => reinitGate_no_abort ch.yGate (ch.depValue ch.Ydep0)
        (ch.depValue ch.Ydep1) ch.Ypower ch.Y ch.yInited gacc hyok2
    have hz : ∀ gacc, reinitGate ch.zGate (ch.depValue ch.Zdep0)
        (ch.depValue ch.Zdep1) ch.Zpower ch.Z ch.zInited gacc = _ :=
      fun gacc => reinitGate_no_abort ch.zGate (ch.depValue ch.Zdep0)
        (ch.depValue ch.Zdep1) ch.Zpower ch.Z ch.zInited gacc hzok2
    simp only [HHChannelF2D.vReinit, hx, hy, hz, hXa, hXb, hYa, hYb, hZa, hZb]
    simp

/-- A 2-D formula gate whose alpha and beta expressions are the constant
`0`, so every lookup returns `(A, B) = (0, 0)` with `B` far below the
reinit threshold. -/
def gateZero : HHGateF2D :=
  { alphaF := fun _ _ => 0, betaF := fun _ _ => 0, v := 0, conc := 0,
    tauInf := false, originalChanId := 1 }

/-- C3 failing input: X and Y gates active, the X gate's `B` is `0`
(below `1e-15`), the Y gate is healthy (`(A, B) = (1, 2)`) and not
pre-initialised, gate states `X = 1/3`, `Y = 1/4`, previous `Gk = 7` and
`Ik = 9`. -/
def chanC3 : HHChannelF2D :=
  { chanEx with Ypower := 1, X := 1 / 3, Y := 1 / 4, Z := 2 / 5,
                xGate := gateZero, Gk := 7, Ik := 9 }

/-- C3 counterexample: on `chanC3` the X gate's `B = 0` refusal does not
affect only the X gate — the whole reinit returns: the healthy,
non-pre-initialised Y gate is left at `1/4` instead of its steady state
`1/2`, and `Gk`/`Ik` are neither updated nor emitted. -/
theorem hhchannelf2d_reinit_abort_counterexample :
    chanC3.vReinit.1.Y = 1 / 4 ∧
    chanC3.vReinit.1.Y ≠ 1 / 2 ∧
    chanC3.vReinit.2 = false ∧
    chanC3.vReinit.1.Gk = 7 ∧
    chanC3.vReinit.1.Ik = 9 := by
  have hx : reinitGate chanC3.xGate (chanC3.depValue chanC3.Xdep0)
      (chanC3.depValue chanC3.Xdep1) chanC3.Xpower chanC3.X chanC3.xInited
      chanC3.Gbar = Except.error gateZero := by
    have hcalc : chanC3.xGate.lookupBoth (chanC3.depValue chanC3.Xdep0)
        (chanC3.depValue chanC3.Xdep1) = (0, 0, gateZero) := by
      norm_num [chanC3, chanEx, gateZero, HHGateF2D.lookupBoth,
        HHGateF2D.lookupA, HHGateF2D.lookupB, HHChannelF2D.depValue]
    simp only [reinitGate, hcalc]
    norm_num [chanC3, chanEx, EPSILON]
  simp only [HHChannelF2D.vReinit, hx]
  norm_num [chanC3, chanEx]

/-- C3 witness: the amended reinit theorem applied to `chanC3`, with the
concrete lookup values discharged: the abort clause yields the unchanged
state and the suppressed emission. -/
theorem hhchannelf2d_reinit_amended_witness :
    chanC3.vReinit.1.X = 1 / 3 ∧ chanC3.vReinit.1.Y = 1 / 4 ∧
    chanC3.vReinit.1.Gk = 7 ∧ chanC3.vReinit.2 = false := by
  have h := (hhchannelf2d_reinit_amended chanC3 0 0 1 2 1 2
    (by norm_num [chanC3, chanEx, gateZero, HHGateF2D.lookupBoth,
      HHGateF2D.lookupA, HHGateF2D.lookupB, HHChannelF2D.depValue])
    (by norm_num [chanC3, chanEx, gateZero, HHGateF2D.lookupBoth,
      HHGateF2D.lookupA, HHGateF2D.lookupB, HHChannelF2D.depValue])
    (by norm_num [chanC3, chanEx, gateOne, HHGateF2D.lookupBoth,
      HHGateF2D.lookupA, HHGateF2D.lookupB, HHChannelF2D.depValue])
    (by norm_num [chanC3, chanEx, gateOne, HHGateF2D.lookupBoth,
      HHGateF2D.lookupA, HHGateF2D.lookupB, HHChannelF2D.depValue])
    (by norm_num [chanC3, chanEx, gateOne, HHGateF2D.lookupBoth,
      HHGateF2D.lookupA, HHGateF2D.lookupB, HHChannelF2D.depValue])
    (by norm_num [chanC3, chanEx, gateOne, HHGateF2D.lookupBoth,
      HHGateF2D.lookupA, HHGateF2D.lookupB, HHChannelF2D.depValue])).1
    (by norm_num [chanC3, chanEx]) (by rw [EPSILON]; norm_num)
  refine ⟨?_, ?_, ?_, h.2.2.2.2.2⟩
  · rw [h.1]; norm_num [chanC3, chanEx]
  · rw [h.2.1]; norm_num [chanC3, chanEx]
  · rw [h.2.2.2.1]; norm_num [chanC3, chanEx]

/-- C8 failing input: a channel whose X index is currently the recognised
`VOLT_INDEX`, with the matching routing `(Xdep0, Xdep1) = (0, -1)`. -/
def chanC8 : HHChannelF2D :=
  { chanEx with Xindex := "VOLT_INDEX", Xdep0 := 0, Xdep1 := -1 }

/-- C8 counterexample: setting the X index of `chanC8` to the
unrecognised string `NOT_AN_INDEX` is not rejected: the string is stored
and the dimension-0 routing slot changes from `0` to `-1`, so the
channel's routing state does not stay unchanged. -/
theorem hhchannelf2d_setXindex_counterexample :
    (chanC8.setXindex "NOT_AN_INDEX").Xindex = "NOT_AN_INDEX" ∧
    (chanC8.setXindex "NOT_AN_INDEX").Xdep0 = -1 ∧
    chanC8.Xdep0 = 0 := by
  refine ⟨?_, ?_, by norm_num [chanC8, chanEx]⟩ <;>
    simp [HHChannelF2D.setXindex, HHChannelF2D.dependency, depMap0, depMap1,
      chanC8, chanEx]

/-- C8 amended: setting the X index to any of the six recognised strings
(different from the current one) installs exactly the policy-table pair
`(dim0, dim1)` — `VOLT ↦ 0`, `C1 ↦ 1`, `C2 ↦ 2`, `NONE ↦ -1`; an
unrecognised string is not rejected: it is stored as the index and both
routing slots are set to `-1` (the assert on `Xdep0_ ≥ 0` in the source
fails in debug builds). -/
theorem hhchannelf2d_setXindex_amended (ch : HHChannelF2D) (s : String)
    (hne : s ≠ ch.Xindex) :
    (s = "VOLT_INDEX" →
      (ch.setXindex s).Xdep0 = 0 ∧ (ch.setXindex s).Xdep1 = -1) ∧
    (s = "C1_INDEX" →
      (ch.setXindex s).Xdep0 = 1 ∧ (ch.setXindex s).Xdep1 = -1) ∧
    (s = "C2_INDEX" →
      (ch.setXindex s).Xdep0 = 2 ∧ (ch.setXindex s).Xdep1 = -1) ∧
    (s = "VOLT_C1_INDEX" →
      (ch.setXindex s).Xdep0 = 0 ∧ (ch.setXindex s).Xdep1 = 1) ∧
    (s = "VOLT_C2_INDEX" →
      (ch.setXindex s).Xdep0 = 0 ∧ (ch.setXindex s).Xdep1 = 2) ∧
    (s = "C1_C2_INDEX" →
      (ch.setXindex s).Xdep0 = 1 ∧ (ch.setXindex s).Xdep1 = 2) ∧
    (s ≠ "VOLT_INDEX" → s ≠ "C1_INDEX" → s ≠ "C2_INDEX" →
     s ≠ "VOLT_C1_INDEX" → s ≠ "VOLT_C2_INDEX" → s ≠ "C1_C2_INDEX" →
      (ch.setXindex s).Xindex = s ∧
      (ch.setXindex s).Xdep0 = -1 ∧ (ch.setXindex s).Xdep1 = -1) := by
  refine ⟨?_, ?_, ?_, ?_, ?_, ?_, ?_⟩
  · intro hs
    subst hs
    simp [HHChannelF2D.setXindex, if_neg hne, HHChannelF2D.dependency,
      depMap0, depMap1]
  · intro hs
    subst hs
    simp [HHChannelF2D.setXindex, if_neg hne, HHChannelF2D.dependency,
      depMap0, depMap1]
  · intro hs
    subst hs
    simp [HHChannelF2D.setXindex, if_neg hne, HHChannelF2D.dependency,
      depMap0, depMap1]
  · intro hs
    subst hs
    simp [HHChannelF2D.setXindex, if_neg hne, HHChannelF2D.dependency,
      depMap0, depMap1]
  · intro hs
    subst hs
    simp [HHChannelF2D.setXindex, if_neg hne, HHChannelF2D.dependency,
      depMap0, depMap1]
  · intro hs
    subst hs
    simp [HHChannelF2D.setXindex, if_neg hne, HHChannelF2D.dependency,
      depMap0, depMap1]
  · intro h1 h2 h3 h4 h5 h6
    simp [HHChannelF2D.setXindex, if_neg hne, HHChannelF2D.dependency,
      depMap0, depMap1, h1, h2, h3, h4, h5, h6]

/-- C8 witness: the amended theorem applied to `chanC8` with the
recognised string `VOLT_C1_INDEX` and the unrecognised string
`NOT_AN_INDEX`. -/
theorem hhchannelf2d_setXindex_amended_witness :
    ((chanC8.setXindex "VOLT_C1_INDEX").Xdep0 = 0 ∧
     (chanC8.setXindex "VOLT_C1_INDEX").Xdep1 = 1) ∧
    ((chanC8.setXindex "NOT_AN_INDEX").Xindex = "NOT_AN_INDEX" ∧
     (chanC8.setXindex "NOT_AN_INDEX").Xdep0 = -1 ∧
     (chanC8.setXindex "NOT_AN_INDEX").Xdep1 = -1) := by
  constructor
  · exact (hhchannelf2d_setXindex_amended chanC8 "VOLT_C1_INDEX"
      (by simp [chanC8, chanEx])).2.2.2.1 rfl
  · exact (hhchannelf2d_setXindex_amended chanC8 "NOT_AN_INDEX"
      (by simp [chanC8, chanEx])).2.2.2.2.2.2
      (by simp) (by simp) (by simp) (by simp) (by simp) (by simp)

/-- C5 witness: the amended round-trip theorem applied to `gateEx` with
`parmsC5` (`divs = 1`), yielding the ten coefficients, the table size
`2`, and the range `[0, 1]`. -/
theorem hhgate_alphaParms_roundtrip_amended_witness :
    (gateEx.setupAlpha exOne 1 parmsC5).1.getAlphaParms =
      [0, 0, 0, 0, 1, 0, 0, 0, 0, 1, 2, 0, 1] := by
  have h := hhgate_alphaParms_roundtrip_amended exOne gateEx 1 parmsC5 1
    rfl rfl (by norm_num [parmsC5]) (le_refl 1)
  rw [h]
  norm_num [parmsC5]
